import Mathlib

/-!
Verification of the connection/matchmaking/round state machine of the
rock-paper-scissors session server (source files src/unnamed/part_000 and
src/unnamed/part_001; part_001 is the superset of part_000, whose handlers
are the same for everything modelled here except that part_000 has no
playerReadyState table).  The JavaScript Map objects are embedded as
association lists over String keys; Map.set replaces an existing binding in
place, Map.delete removes it, Map.get is the first-match lookup.  WebSocket
sends are modelled as a list of (recipient name, message) pairs, and the
external scoreboard database as a list of usernames whose score the handler
increments.
-/

namespace RPS

/-- The three recognized symbols of the game (source strings "pierre",
"feuille", "ciseaux": rock, paper, scissors). -/
inductive Choice
  | pierre
  | feuille
  | ciseaux
deriving DecidableEq

/-- Result of getResult: "draw", "player1" (first argument wins) or
"player2" (second argument wins). -/
inductive RoundResult
  | draw
  | player1
  | player2
deriving DecidableEq

/-- Embeds function getResult of part_001 lines 852-862 (identical in
part_000 lines 354-364). -/
def getResult (choice1 choice2 : Choice) : RoundResult :=
  if choice1 = choice2 then RoundResult.draw
  else if (choice1 = Choice.pierre ∧ choice2 = Choice.ciseaux) ∨
          (choice1 = Choice.feuille ∧ choice2 = Choice.pierre) ∨
          (choice1 = Choice.ciseaux ∧ choice2 = Choice.feuille) then RoundResult.player1
  else RoundResult.player2

/-- Embeds the validation list ["pierre", "feuille", "ciseaux"] used by the
play_online and play_ai handlers: a raw inbound choice string parses to a
Choice exactly when the source includes-check accepts it. -/
def parseChoice : String → Option Choice
  | "pierre" => some Choice.pierre
  | "feuille" => some Choice.feuille
  | "ciseaux" => some Choice.ciseaux
  | _ => none

/-- Association-list lookup: JavaScript Map.get (first matching key). -/
def aget {α : Type} : List (String × α) → String → Option α
  | [], _ => none
  | (k, v) :: rest, key => if k = key then some v else aget rest key

/-- Association-list update: JavaScript Map.set (replaces the binding in
place if the key is present, otherwise appends). -/
def aset {α : Type} : List (String × α) → String → α → List (String × α)
  | [], key, v => [(key, v)]
  | (k, w) :: rest, key, v =>
      if k = key then (key, v) :: rest else (k, w) :: aset rest key v

/-- Association-list removal: JavaScript Map.delete. -/
def adel {α : Type} : List (String × α) → String → List (String × α)
  | [], _ => []
  | (k, v) :: rest, key =>
      if k = key then adel rest key else (k, v) :: adel rest key

/-- Lobby error messages of the join_private_game handler: the three
distinct French error texts of the source are abstracted into tags
(notFound for the nonexistent-game text, selfJoin for the own-game text,
full for the already-complete text). -/
inductive JoinErr
  | notFound
  | selfJoin
  | full
deriving DecidableEq

/-- The result field of a game_result message: "draw", "player" (the
recipient won) or "opponent" (the recipient lost). -/
inductive Outcome
  | draw
  | player
  | opponent
deriving DecidableEq

/-- Outbound messages sent to a single participant, abstracting the typed
JSON payloads of the source (the derived French message texts are
dropped; every discriminating field is kept). -/
inductive Msg
  | loginSuccess
  | loginError
  | privateGameCreated (gameId : String)
  | errorMsg (e : JoinErr)
  | gameJoined (opponent : String)
  | gameResult (result : Outcome) (playerChoice opponentChoice : Choice)
      (opponentName : String)
  | opponentLeft
  | startNewRound
deriving DecidableEq

/-- A private game record: { host, guest } with guest initially null. -/
structure Lobby where
  host : String
  guest : Option String
deriving DecidableEq

/-- The shared in-memory state of part_001: players (name to pending
choice; the ws handle is owned by the transport and not modelled),
quickMatchQueue, privateGames, matchTable and playerReadyState.  The
playerModes and authenticatedUsers maps are never read by any modelled
handler and are omitted. -/
structure ServerState where
  players : List (String × Option Choice)
  quickMatchQueue : List String
  privateGames : List (String × Lobby)
  matchTable : List (String × String)
  playerReadyState : List (String × Bool)
deriving DecidableEq

/-- Result of running one handler: the new state, the direct (recipient,
message) sends in emission order, and the usernames whose score the
handler increments in the external database.  The ranking and
online-count broadcasts go to every connected player and carry no
per-handler information, so they are not modelled. -/
structure HandlerOut where
  state : ServerState
  sends : List (String × Msg)
  scoreIncs : List String
deriving DecidableEq

/-- JavaScript truthiness of a possibly-absent string (undefined and the
empty string are falsy). -/
def optStrTruthy : Option String → Bool
  | none => false
  | some x => x ≠ ""

/-- JavaScript truthiness of a possibly-absent boolean (undefined and
false are falsy). -/
def optTruthy : Option Bool → Bool
  | some true => true
  | _ => false

/-- Embeds removePlayerFromMatch (part_001 lines 842-850): reads the
opponent entry; if it is truthy, deletes the player entry and, unless the
opponent is the sentinel "IA", the opponent entry as well. -/
def removePlayerFromMatch (m : List (String × String)) (p : String) :
    List (String × String) :=
  match aget m p with
  | none => m
  | some opp =>
      if opp = "" then m
      else if opp = "IA" then adel m p
      else adel (adel m p) opp

/-- Embeds the quickMatchQueue splice in the leave/close handlers:
indexOf followed by splice removes the first occurrence only. -/
def removeFromQueue : List String → String → List String
  | [], _ => []
  | x :: rest, p => if x = p then rest else x :: removeFromQueue rest p

/-- Embeds the privateGames cleanup loop of the leave/close handlers:
every lobby whose host is the departing player is deleted. -/
def removeHostedLobbies : List (String × Lobby) → String → List (String × Lobby)
  | [], _ => []
  | e :: rest, p =>
      if e.2.host = p then removeHostedLobbies rest p
      else e :: removeHostedLobbies rest p

/-- Embeds the while loop of matchQuickPlayers (part_001 lines 811-839):
while at least two entries remain, shift the two oldest; if both are
still connected, install the symmetric match entries, reset both ready
flags and send game_joined to both; otherwise both shifted entries are
dropped.  Returns the remaining queue, the matchTable table, the ready
table and the sends. -/
def drainQueue (q : List String) (pl : List (String × Option Choice))
    (m : List (String × String)) (r : List (String × Bool)) :
    List String × List (String × String) × List (String × Bool) ×
      List (String × Msg) :=
  match q with
  | [] => ([], m, r, [])
  | [x] => ([x], m, r, [])
  | p1 :: p2 :: rest =>
      if (aget pl p1).isSome && (aget pl p2).isSome then
        let m1 := aset (aset m p1 p2) p2 p1
        let r1 := aset (aset r p1 false) p2 false
        let rec4 := drainQueue rest pl m1 r1
        (rec4.1, rec4.2.1, rec4.2.2.1,
         (p1, Msg.gameJoined p2) :: (p2, Msg.gameJoined p1) :: rec4.2.2.2)
      else
        drainQueue rest pl m r

/-- matchQuickPlayers as a state transformer. -/
def matchQuickPlayers (s : ServerState) : ServerState × List (String × Msg) :=
  let d := drainQueue s.quickMatchQueue s.players s.matchTable s.playerReadyState
  ({ s with quickMatchQueue := d.1, matchTable := d.2.1, playerReadyState := d.2.2.1 },
   d.2.2.2)

/-- Embeds the quick_match handler (part_001 lines 501-511): enqueue the
player unless already queued, then run matchQuickPlayers. -/
def quickMatch (s : ServerState) (p : String) : ServerState × List (String × Msg) :=
  let q1 := if p ∈ s.quickMatchQueue then s.quickMatchQueue
            else s.quickMatchQueue ++ [p]
  matchQuickPlayers { s with quickMatchQueue := q1 }

/-- Embeds the create_private_game handler (part_001 lines 512-526); the
uuid generated for the game is passed in as a parameter. -/
def createPrivateGame (s : ServerState) (p gameId : String) : HandlerOut :=
  ⟨{ s with privateGames := aset s.privateGames gameId ⟨p, none⟩ },
   [(p, Msg.privateGameCreated gameId)], []⟩

/-- Embeds the join_private_game handler (part_001 lines 527-588,
identical in part_000 lines 138-183 except for the ready flags): checks,
in order, that the game exists, that the joiner is not the host and that
the guest slot is empty (JavaScript truthiness), then stores the guest,
installs the symmetric match entries, resets both ready flags and sends
game_joined to both sides. -/
def joinPrivateGame (s : ServerState) (p gameId : String) : HandlerOut :=
  match aget s.privateGames gameId with
  | none => ⟨s, [(p, Msg.errorMsg JoinErr.notFound)], []⟩
  | some g =>
      if g.host = p then ⟨s, [(p, Msg.errorMsg JoinErr.selfJoin)], []⟩
      else if optStrTruthy g.guest then ⟨s, [(p, Msg.errorMsg JoinErr.full)], []⟩
      else
        ⟨{ s with
            privateGames := aset s.privateGames gameId ⟨g.host, some p⟩,
            matchTable := aset (aset s.matchTable g.host p) p g.host,
            playerReadyState := aset (aset s.playerReadyState g.host false) p false },
         [(g.host, Msg.gameJoined p), (p, Msg.gameJoined g.host)], []⟩

/-- Embeds the guest branch of the login handler (part_001 lines 353-402,
identical in part_000 lines 37-49): a name already present in players is
rejected with login_error and nothing changes; otherwise the player is
registered with a null pending choice. -/
def guestLogin (s : ServerState) (name : String) : HandlerOut :=
  if (aget s.players name).isSome then
    ⟨s, [(name, Msg.loginError)], []⟩
  else
    ⟨{ s with players := aset s.players name none },
     [(name, Msg.loginSuccess)], []⟩

/-- Embeds the token branch of the login handler (part_001 lines 277-314).
Token verification is an external collaborator; authOk abstracts its
verdict.  On success the player is registered unconditionally (no
duplicate-name check), overwriting any existing entry. -/
def tokenLogin (s : ServerState) (name : String) (authOk : Bool) : HandlerOut :=
  if authOk then
    ⟨{ s with players := aset s.players name none },
     [(name, Msg.loginSuccess)], []⟩
  else ⟨s, [(name, Msg.loginError)], []⟩

/-- Embeds the username/password branch of the login handler (part_001
lines 316-352).  Credential checking is an external collaborator; authOk
abstracts its verdict.  On success the player is registered
unconditionally (no duplicate-name check), overwriting any existing
entry. -/
def passwordLogin (s : ServerState) (name : String) (authOk : Bool) : HandlerOut :=
  if authOk then
    ⟨{ s with players := aset s.players name none },
     [(name, Msg.loginSuccess)], []⟩
  else ⟨s, [(name, Msg.loginError)], []⟩

/-- Embeds the play_online handler (part_001 lines 589-692, identical in
part_000 lines 185-252 up to message payloads): an unrecognized choice
string is logged and dropped; otherwise the sender must be registered and
its pending choice is stored; if the sender has a registered opponent
whose pending choice is truthy, the round resolves: both sides get a
game_result message, a decisive winner gets one score increment, and both
pending choices are reset to null.  The match entry is not touched. -/
def playOnline (s : ServerState) (p rawChoice : String) : HandlerOut :=
  match parseChoice rawChoice with
  | none => ⟨s, [], []⟩
  | some c =>
      match aget s.players p with
      | none => ⟨s, [], []⟩
      | some _ =>
          let pl1 := aset s.players p (some c)
          let s1 : ServerState := { s with players := pl1 }
          match aget s.matchTable p with
          | none => ⟨s1, [], []⟩
          | some opp =>
              if opp = "" then ⟨s1, [], []⟩
              else
                match aget pl1 opp with
                | none => ⟨s1, [], []⟩
                | some oppPending =>
                    match oppPending with
                    | none => ⟨s1, [], []⟩
                    | some oc =>
                        let s2 : ServerState :=
                          { s with players := aset (aset pl1 p none) opp none }
                        match getResult c oc with
                        | RoundResult.draw =>
                            ⟨s2,
                             [(p, Msg.gameResult Outcome.draw c oc opp),
                              (opp, Msg.gameResult Outcome.draw oc c p)], []⟩
                        | RoundResult.player1 =>
                            ⟨s2,
                             [(p, Msg.gameResult Outcome.player c oc opp),
                              (opp, Msg.gameResult Outcome.opponent oc c p)], [p]⟩
                        | RoundResult.player2 =>
                            ⟨s2,
                             [(p, Msg.gameResult Outcome.opponent c oc opp),
                              (opp, Msg.gameResult Outcome.player oc c p)], [opp]⟩

/-- Embeds the ready_for_next_round handler (part_001 lines 693-734): the
vote is stored first; if a truthy non-IA registered opponent exists, then
when both stored votes are truthy both sides get start_new_round and both
votes reset to false; otherwise when the two stored votes differ under
strict inequality, a truthy sender vote sends opponent_left to the sender
alone, and a falsy sender vote does nothing. -/
def readyForNextRound (s : ServerState) (p : String) (v : Bool) :
    ServerState × List (String × Msg) :=
  let r1 := aset s.playerReadyState p v
  let s1 : ServerState := { s with playerReadyState := r1 }
  match aget s.matchTable p with
  | none => (s1, [])
  | some opp =>
      if opp ≠ "" ∧ opp ≠ "IA" ∧ (aget s.players opp).isSome then
        if optTruthy (aget r1 p) && optTruthy (aget r1 opp) then
          ({ s1 with playerReadyState := aset (aset r1 p false) opp false },
           [(p, Msg.startNewRound), (opp, Msg.startNewRound)])
        else if aget r1 p ≠ aget r1 opp then
          if optTruthy (aget r1 p) then (s1, [(p, Msg.opponentLeft)])
          else (s1, [])
        else (s1, [])
      else (s1, [])

/-- Embeds the leave_game handler (part_001 lines 735-762): a truthy
non-IA registered opponent is notified with opponent_left; then the match
entries, the first queue occurrence and every hosted lobby of the leaver
are removed.  The close handler runs the same steps plus the
players-table removal; only the shared teardown steps are modelled. -/
def leaveGame (s : ServerState) (p : String) : ServerState × List (String × Msg) :=
  let sends :=
    match aget s.matchTable p with
    | none => []
    | some opp =>
        if opp ≠ "" ∧ opp ≠ "IA" ∧ (aget s.players opp).isSome then
          [(opp, Msg.opponentLeft)]
        else []
  ({ s with
      matchTable := removePlayerFromMatch s.matchTable p,
      quickMatchQueue := removeFromQueue s.quickMatchQueue p,
      privateGames := removeHostedLobbies s.privateGames p },
   sends)

/-- Consecutive two-chunks of a queue in formation order: the pairs the
drain loop draws, oldest first (a dangling odd entry forms no pair). -/
def chunkPairs : List String → List (String × String)
  | [] => []
  | [_] => []
  | x :: y :: rest => (x, y) :: chunkPairs rest

/-- What the drain loop leaves in the queue: the dangling odd entry if the
length is odd, nothing otherwise. -/
def chunkRest : List String → List String
  | [] => []
  | [x] => [x]
  | _ :: _ :: rest => chunkRest rest

/-- The drain-loop guard: both drawn names are still registered. -/
def bothRegistered (pl : List (String × Option Choice)) (pr : String × String) :
    Bool :=
  (aget pl pr.1).isSome && (aget pl pr.2).isSome

/-- The symmetric double Map.set a pair receives in the match table. -/
def pairFold (m : List (String × String)) (pr : String × String) :
    List (String × String) :=
  aset (aset m pr.1 pr.2) pr.2 pr.1

/-- The double ready-flag reset a pair receives. -/
def readyFold (r : List (String × Bool)) (pr : String × String) :
    List (String × Bool) :=
  aset (aset r pr.1 false) pr.2 false

/-- The two game_joined messages per formed pair, in formation order. -/
def pairSendsAll : List (String × String) → List (String × Msg)
  | [] => []
  | pr :: rest =>
      (pr.1, Msg.gameJoined pr.2) :: (pr.2, Msg.gameJoined pr.1) ::
        pairSendsAll rest

/-- Match-table symmetry invariant of the spec: every entry whose value is
not the IA sentinel and whose key is a real (non-IA) participant has the
reciprocal entry. -/
def SymmMatches (m : List (String × String)) : Prop :=
  ∀ x y, x ≠ "IA" → aget m x = some y → y ≠ "IA" → aget m y = some x

/-- Concrete scenario for claim C1: alice and bob are symmetrically
matched, alice and carol sit in the quick-match queue, all three are
registered. -/
def c1State : ServerState :=
  ⟨[("alice", none), ("bob", none), ("carol", none)], ["alice", "carol"], [],
   [("alice", "bob"), ("bob", "alice")], []⟩

/-- Concrete scenario for claim C2: alice is registered with a pending
choice of pierre. -/
def c2State : ServerState := ⟨[("alice", some Choice.pierre)], [], [], [], []⟩

/-- Concrete scenario for claim C8: alice and bob are registered and
matched, bob already holds a pending choice. -/
def c8State : ServerState :=
  ⟨[("alice", none), ("bob", some Choice.ciseaux)], [], [],
   [("alice", "bob"), ("bob", "alice")], []⟩

/-- Concrete scenario for claim C3: alice and bob are registered and
matched; bob has the pending choice ciseaux, alice none. -/
def c3State : ServerState :=
  ⟨[("alice", none), ("bob", some Choice.ciseaux)], [], [],
   [("alice", "bob"), ("bob", "alice")], []⟩

/-- Concrete scenario for claim C9: alice hosts a lobby, is matched with
bob, zed waits in the queue. -/
def c9State : ServerState :=
  ⟨[("alice", none), ("bob", none)], ["zed"], [("t1", ⟨"alice", none⟩)],
   [("alice", "bob"), ("bob", "alice")], []⟩

/-- Concrete scenario for claim C10: alice and bob are registered and
matched; bob has a stored ready vote of false. -/
def c10State : ServerState :=
  ⟨[("alice", none), ("bob", none)], [], [],
   [("alice", "bob"), ("bob", "alice")], [("bob", false)]⟩

/-- Concrete scenario for claim C5: queue A, B, C, D in formation order
with B no longer registered. -/
def c5State : ServerState :=
  ⟨[("A", none), ("C", none), ("D", none)], ["A", "B", "C", "D"], [], [], []⟩

/-- Concrete scenario for claim C6: dora and emil hold the symmetric
pairing; dora and fred sit in the queue; all three are registered. -/
def c6State : ServerState :=
  ⟨[("dora", none), ("emil", none), ("fred", none)], ["dora", "fred"], [],
   [("dora", "emil"), ("emil", "dora")], []⟩

/-- Concrete scenario for claim C7: omar hosts lobby t7 with no guest;
omar and pia are registered. -/
def c7State : ServerState :=
  ⟨[("omar", none), ("pia", none)], [], [("t7", ⟨"omar", none⟩)], [], []⟩

theorem aget_aset_self {α : Type} (m : List (String × α)) (k : String) (v : α) :
    aget (aset m k v) k = some v := by
  induction m with
  | nil => simp [aget, aset]
  | cons e rest ih =>
      obtain ⟨k', v'⟩ := e
      by_cases h : k' = k
      · simp [aset, aget, h]
      · simp [aset, aget, h, ih]

theorem aget_aset_ne {α : Type} (m : List (String × α)) (k k' : String) (v : α)
    (h : k' ≠ k) : aget (aset m k v) k' = aget m k' := by
  have h' : k ≠ k' := Ne.symm h
  induction m with
  | nil => simp [aget, aset, h']
  | cons e rest ih =>
      obtain ⟨k0, v0⟩ := e
      by_cases h0 : k0 = k
      · subst h0
        simp [aset, aget, h']
      · simp only [aset, if_neg h0, aget]
        by_cases h1 : k0 = k'
        · simp [h1]
        · simp [h1, ih]

theorem aget_adel_self {α : Type} (m : List (String × α)) (k : String) :
    aget (adel m k) k = none := by
  induction m with
  | nil => simp [aget, adel]
  | cons e rest ih =>
      obtain ⟨k', v'⟩ := e
      by_cases h : k' = k
      · simp [adel, h, ih]
      · simp [adel, aget, h, ih]

theorem aget_adel_ne {α : Type} (m : List (String × α)) (k k' : String)
    (h : k' ≠ k) : aget (adel m k) k' = aget m k' := by
  have h' : k ≠ k' := Ne.symm h
  induction m with
  | nil => simp [adel]
  | cons e rest ih =>
      obtain ⟨k0, v0⟩ := e
      by_cases h0 : k0 = k
      · subst h0
        simp [adel, aget, h', ih]
      · simp [adel, aget, h0, ih]

theorem adel_of_aget_none {α : Type} (m : List (String × α)) (k : String)
    (h : aget m k = none) : adel m k = m := by
  induction m with
  | nil => simp [adel]
  | cons e rest ih =>
      obtain ⟨k0, v0⟩ := e
      by_cases h0 : k0 = k
      · simp [aget, h0] at h
      · simp [aget, h0] at h
        simp [adel, h0, ih h]

/-- Claim C1 counterexample: from a state where alice and bob hold the
symmetric pairing, draining the quick-match queue containing alice and
carol does not fail with AlreadyMatched: it silently repoints alice to
carol, leaves the stale entry bob to alice, and sends the two game_joined
messages, so the original pairing is not intact. -/
theorem c1_counterexample :
    aget (matchQuickPlayers c1State).1.matchTable "alice" = some "carol" ∧
    aget (matchQuickPlayers c1State).1.matchTable "bob" = some "alice" ∧
    (matchQuickPlayers c1State).2 =
      [("alice", Msg.gameJoined "carol"), ("carol", Msg.gameJoined "alice")] := by
  decide

/-- Claim C1 amended: neither pairing path checks the match table.
Quick-match draining of a queue holding a and c, with a already in the
symmetric pairing a and b, succeeds silently: a is repointed to c, c
points to a, the stale reciprocal entry of b survives, and both players
get game_joined; analogously a private-lobby join pairs the host with the
guest by blind overwrite, preserving any stale third-party entry. -/
theorem c1_amended (s : ServerState) (a b c : String)
    (hq : s.quickMatchQueue = [a, c])
    (hab : aget s.matchTable a = some b)
    (hba2 : aget s.matchTable b = some a)
    (hpa : (aget s.players a).isSome = true)
    (hpc : (aget s.players c).isSome = true)
    (hac : a ≠ c) (hbc : b ≠ c) (hba : b ≠ a) :
    aget (matchQuickPlayers s).1.matchTable a = some c ∧
    aget (matchQuickPlayers s).1.matchTable c = some a ∧
    aget (matchQuickPlayers s).1.matchTable b = some a ∧
    (matchQuickPlayers s).2 =
      [(a, Msg.gameJoined c), (c, Msg.gameJoined a)] ∧
    (∀ s2 t h2 j b2, aget s2.privateGames t = some ⟨h2, none⟩ → h2 ≠ j →
       aget s2.matchTable h2 = some b2 → aget s2.matchTable b2 = some h2 →
       b2 ≠ j → b2 ≠ h2 →
       aget (joinPrivateGame s2 j t).state.matchTable h2 = some j ∧
       aget (joinPrivateGame s2 j t).state.matchTable j = some h2 ∧
       aget (joinPrivateGame s2 j t).state.matchTable b2 = some h2 ∧
       (joinPrivateGame s2 j t).sends =
         [(h2, Msg.gameJoined j), (j, Msg.gameJoined h2)]) := by
  have hout : matchQuickPlayers s =
      ({ s with quickMatchQueue := [],
                matchTable := aset (aset s.matchTable a c) c a,
                playerReadyState :=
                  aset (aset s.playerReadyState a false) c false },
       [(a, Msg.gameJoined c), (c, Msg.gameJoined a)]) := by
    simp [matchQuickPlayers, hq, drainQueue, hpa, hpc]
  refine ⟨?_, ?_, ?_, ?_, ?_⟩
  · rw [hout]
    simp only []
    rw [aget_aset_ne _ c a _ hac, aget_aset_self]
  · rw [hout]
    simp only []
    rw [aget_aset_self]
  · rw [hout]
    simp only []
    rw [aget_aset_ne _ c b _ hbc, aget_aset_ne _ a b _ hba, hba2]
  · rw [hout]
  · intro s2 t h2 j b2 hg hhj hm1 hm2 hbj hbh
    have hj2 : joinPrivateGame s2 j t =
        ⟨{ s2 with
            privateGames := aset s2.privateGames t ⟨h2, some j⟩,
            matchTable := aset (aset s2.matchTable h2 j) j h2,
            playerReadyState :=
              aset (aset s2.playerReadyState h2 false) j false },
         [(h2, Msg.gameJoined j), (j, Msg.gameJoined h2)], []⟩ := by
      simp [joinPrivateGame, hg, hhj, optStrTruthy]
    refine ⟨?_, ?_, ?_, ?_⟩
    · rw [hj2]
      simp only []
      rw [aget_aset_ne _ j h2 _ hhj, aget_aset_self]
    · rw [hj2]
      simp only []
      rw [aget_aset_self]
    · rw [hj2]
      simp only []
      rw [aget_aset_ne _ j b2 _ hbj, aget_aset_ne _ h2 b2 _ hbh, hm2]
    · rw [hj2]

/-- Witness for the amended C1 at the concrete scenario state. -/
theorem c1_amended_witness :
    aget (matchQuickPlayers c1State).1.matchTable "alice" = some "carol" ∧
    aget (matchQuickPlayers c1State).1.matchTable "bob" = some "alice" :=
  have h := c1_amended c1State "alice" "bob" "carol" rfl (by decide) (by decide)
    (by decide) (by decide) (by decide) (by decide) (by decide)
  ⟨h.1, h.2.2.1⟩

/-- Claim C2 counterexample: with alice already registered, a password or
token login for alice whose external authentication succeeds is not
rejected: it sends login_success and overwrites the registry entry,
resetting the pending choice, contradicting the claimed name-conflict
rejection on every join path. -/
theorem c2_counterexample :
    passwordLogin c2State "alice" true =
      ⟨⟨[("alice", none)], [], [], [], []⟩, [("alice", Msg.loginSuccess)], []⟩ ∧
    tokenLogin c2State "alice" true =
      ⟨⟨[("alice", none)], [], [], [], []⟩, [("alice", Msg.loginSuccess)], []⟩ := by
  decide

/-- Claim C2 amended: only the guest join path rejects an
already-registered display name with a name-conflict error and leaves the
registry unchanged; the password and token login paths, once external
authentication succeeds, register the name unconditionally and overwrite
any existing entry.  At most one registry entry per display name holds at
every state only because Map.set replaces the binding in place, as the
final conjunct states. -/
theorem c2_amended (s : ServerState) (name : String) :
    ((aget s.players name).isSome = true →
       guestLogin s name = ⟨s, [(name, Msg.loginError)], []⟩) ∧
    ((aget s.players name).isSome = false →
       guestLogin s name = ⟨{ s with players := aset s.players name none },
         [(name, Msg.loginSuccess)], []⟩) ∧
    passwordLogin s name true = ⟨{ s with players := aset s.players name none },
      [(name, Msg.loginSuccess)], []⟩ ∧
    tokenLogin s name true = ⟨{ s with players := aset s.players name none },
      [(name, Msg.loginSuccess)], []⟩ ∧
    (∀ k, aget (aset s.players name none) k =
       if k = name then some none else aget s.players k) := by
  refine ⟨?_, ?_, ?_, ?_, ?_⟩
  · intro h
    simp [guestLogin, h]
  · intro h
    simp [guestLogin, h]
  · simp [passwordLogin]
  · simp [tokenLogin]
  · intro k
    by_cases hk : k = name
    · subst hk
      simp [aget_aset_self]
    · simp [hk, aget_aset_ne _ name k _ hk]

/-- Witness for the amended C2 at the concrete scenario state. -/
theorem c2_amended_witness :
    guestLogin c2State "alice" = ⟨c2State, [("alice", Msg.loginError)], []⟩ :=
  (c2_amended c2State "alice").1 (by decide)

/-- Claim C8 counterexample: the submission of the unrecognized symbol
string lezard mutates nothing and sends nothing to anyone: the sends list
is empty, so the sender does not receive the claimed typed InvalidChoice
error notification (the source only logs server-side and returns). -/
theorem c8_counterexample :
    playOnline c8State "alice" "lezard" = ⟨c8State, [], []⟩ := by
  decide

/-- Claim C8 amended: a choice submission whose symbol is not one of the
three recognized symbols mutates no state, updates no score and sends no
notification at all, to the submitter or anyone else; the invalid choice
is only logged server-side. -/
theorem c8_amended (s : ServerState) (p raw : String)
    (hraw : parseChoice raw = none) :
    playOnline s p raw = ⟨s, [], []⟩ := by
  simp [playOnline, hraw]

/-- Witness for the amended C8 at the concrete scenario state. -/
theorem c8_amended_witness :
    playOnline c8State "bob" "lezard" = ⟨c8State, [], []⟩ :=
  c8_amended c8State "bob" "lezard" rfl

/-- Claim C3: a valid online choice submission by p, matched to a
registered opponent opp.  When the opponent pending choice is empty, only
the sender pending choice is stored and nothing is sent or scored.  When
it holds a choice, the round resolves: both sides receive their
game_result message, the winner (if the round is decisive) gets exactly
one score increment, both pending choices are reset to null together, and
the match table is untouched. -/
theorem c3_round (s : ServerState) (p opp raw : String) (c : Choice)
    (hraw : parseChoice raw = some c)
    (hp : (aget s.players p).isSome = true)
    (hm : aget s.matchTable p = some opp)
    (hne : opp ≠ "")
    (hpo : p ≠ opp) :
    (aget s.players opp = some none →
       playOnline s p raw =
         ⟨{ s with players := aset s.players p (some c) }, [], []⟩) ∧
    (∀ oc, aget s.players opp = some (some oc) →
       (playOnline s p raw).state.matchTable = s.matchTable ∧
       aget (playOnline s p raw).state.players p = some none ∧
       aget (playOnline s p raw).state.players opp = some none ∧
       (playOnline s p raw).sends = (match getResult c oc with
         | RoundResult.draw =>
             [(p, Msg.gameResult Outcome.draw c oc opp),
              (opp, Msg.gameResult Outcome.draw oc c p)]
         | RoundResult.player1 =>
             [(p, Msg.gameResult Outcome.player c oc opp),
              (opp, Msg.gameResult Outcome.opponent oc c p)]
         | RoundResult.player2 =>
             [(p, Msg.gameResult Outcome.opponent c oc opp),
              (opp, Msg.gameResult Outcome.player oc c p)]) ∧
       (playOnline s p raw).scoreIncs = (match getResult c oc with
         | RoundResult.draw => []
         | RoundResult.player1 => [p]
         | RoundResult.player2 => [opp])) := by
  obtain ⟨pc, hpc⟩ := Option.isSome_iff_exists.mp hp
  constructor
  · intro hoppNone
    have hgl : aget (aset s.players p (some c)) opp = some none := by
      rw [aget_aset_ne _ p opp _ (Ne.symm hpo)]
      exact hoppNone
    simp [playOnline, hraw, hpc, hm, hne, hgl]
  · intro oc hoc
    have hgl : aget (aset s.players p (some c)) opp = some (some oc) := by
      rw [aget_aset_ne _ p opp _ (Ne.symm hpo)]
      exact hoc
    have hpp : aget (aset (aset (aset s.players p (some c)) p none) opp none) p
        = some none := by
      rw [aget_aset_ne _ opp p _ hpo, aget_aset_self]
    have hpo2 : aget (aset (aset (aset s.players p (some c)) p none) opp none) opp
        = some none := aget_aset_self _ _ _
    cases hres : getResult c oc with
    | draw =>
        have hout : playOnline s p raw =
            ⟨{ s with players := aset (aset (aset s.players p (some c)) p none) opp none },
             [(p, Msg.gameResult Outcome.draw c oc opp),
              (opp, Msg.gameResult Outcome.draw oc c p)], []⟩ := by
          simp [playOnline, hraw, hpc, hm, hne, hgl, hres]
        rw [hout]
        exact ⟨rfl, hpp, hpo2, rfl, rfl⟩
    | player1 =>
        have hout : playOnline s p raw =
            ⟨{ s with players := aset (aset (aset s.players p (some c)) p none) opp none },
             [(p, Msg.gameResult Outcome.player c oc opp),
              (opp, Msg.gameResult Outcome.opponent oc c p)], [p]⟩ := by
          simp [playOnline, hraw, hpc, hm, hne, hgl, hres]
        rw [hout]
        exact ⟨rfl, hpp, hpo2, rfl, rfl⟩
    | player2 =>
        have hout : playOnline s p raw =
            ⟨{ s with players := aset (aset (aset s.players p (some c)) p none) opp none },
             [(p, Msg.gameResult Outcome.opponent c oc opp),
              (opp, Msg.gameResult Outcome.player oc c p)], [opp]⟩ := by
          simp [playOnline, hraw, hpc, hm, hne, hgl, hres]
        rw [hout]
        exact ⟨rfl, hpp, hpo2, rfl, rfl⟩

/-- Witness for C3 at the concrete scenario: alice submits pierre against
the stored ciseaux of bob, wins, and gets the single score increment. -/
theorem c3_round_witness :
    (playOnline c3State "alice" "pierre").scoreIncs = ["alice"] ∧
    aget (playOnline c3State "alice" "pierre").state.players "bob" = some none :=
  have h := (c3_round c3State "alice" "bob" "pierre" Choice.pierre rfl (by decide)
    (by decide) (by decide) (by decide)).2 Choice.ciseaux (by decide)
  ⟨h.2.2.2.2.trans (by decide), h.2.2.1⟩

theorem removePlayerFromMatch_of_none (m : List (String × String)) (p : String)
    (h : aget m p = none) : removePlayerFromMatch m p = m := by
  unfold removePlayerFromMatch
  rw [h]

theorem removePlayerFromMatch_of_empty (m : List (String × String)) (p : String)
    (h : aget m p = some "") : removePlayerFromMatch m p = m := by
  unfold removePlayerFromMatch
  rw [h]
  simp

theorem aget_removePlayerFromMatch_self (m : List (String × String)) (p : String) :
    aget (removePlayerFromMatch m p) p = none ∨
    aget (removePlayerFromMatch m p) p = some "" := by
  unfold removePlayerFromMatch
  cases h : aget m p with
  | none => left; exact h
  | some opp =>
      by_cases he : opp = ""
      · subst he
        right
        simpa using h
      · by_cases hia : opp = "IA"
        · left
          simp [he, hia, aget_adel_self]
        · left
          by_cases hpo : p = opp
          · subst hpo
            simp [he, hia, aget_adel_self]
          · show aget (if opp = "" then m
                else if opp = "IA" then adel m p else adel (adel m p) opp) p = none
            rw [if_neg he, if_neg hia, aget_adel_ne _ opp p hpo, aget_adel_self]

theorem removePlayerFromMatch_idem (m : List (String × String)) (p : String) :
    removePlayerFromMatch (removePlayerFromMatch m p) p =
      removePlayerFromMatch m p := by
  rcases aget_removePlayerFromMatch_self m p with h | h
  · exact removePlayerFromMatch_of_none _ _ h
  · exact removePlayerFromMatch_of_empty _ _ h

theorem removeFromQueue_of_not_mem (q : List String) (p : String) (h : p ∉ q) :
    removeFromQueue q p = q := by
  induction q with
  | nil => rfl
  | cons x rest ih =>
      have h1 : p ≠ x := by
        intro hx
        exact h (by simp [hx])
      have h2 : p ∉ rest := fun hr => h (List.mem_cons_of_mem _ hr)
      simp [removeFromQueue, Ne.symm h1, ih h2]

theorem not_mem_removeFromQueue (q : List String) (p : String) (h : q.Nodup) :
    p ∉ removeFromQueue q p := by
  induction q with
  | nil => simp [removeFromQueue]
  | cons x rest ih =>
      rw [List.nodup_cons] at h
      by_cases hx : x = p
      · subst hx
        simpa [removeFromQueue] using h.1
      · simp only [removeFromQueue, if_neg hx, List.mem_cons]
        rintro (hpx | hmem)
        · exact hx hpx.symm
        · exact ih h.2 hmem

theorem mem_removeHostedLobbies (g : List (String × Lobby)) (p : String)
    (e : String × Lobby) (h : e ∈ removeHostedLobbies g p) : e.2.host ≠ p := by
  induction g with
  | nil => simp [removeHostedLobbies] at h
  | cons e0 rest ih =>
      by_cases h0 : e0.2.host = p
      · rw [removeHostedLobbies, if_pos h0] at h
        exact ih h
      · rw [removeHostedLobbies, if_neg h0] at h
        rcases List.mem_cons.mp h with he | hmem
        · subst he; exact h0
        · exact ih hmem

theorem removeHostedLobbies_of_none (g : List (String × Lobby)) (p : String)
    (h : ∀ e ∈ g, e.2.host ≠ p) : removeHostedLobbies g p = g := by
  induction g with
  | nil => rfl
  | cons e rest ih =>
      have he : e.2.host ≠ p := h e (by simp)
      simp [removeHostedLobbies, he, ih (fun x hx => h x (by simp [hx]))]

theorem removeHostedLobbies_idem (g : List (String × Lobby)) (p : String) :
    removeHostedLobbies (removeHostedLobbies g p) p = removeHostedLobbies g p :=
  removeHostedLobbies_of_none _ _ (fun e he => mem_removeHostedLobbies g p e he)

theorem leaveGame_snd_of_none (s : ServerState) (p : String)
    (h : aget s.matchTable p = none) : (leaveGame s p).2 = [] := by
  simp [leaveGame, h]

theorem leaveGame_snd_of_empty (s : ServerState) (p : String)
    (h : aget s.matchTable p = some "") : (leaveGame s p).2 = [] := by
  simp [leaveGame, h]

/-- Claim C9: teardown is idempotent.  Running the leave teardown a second
time right after a first run changes nothing and sends nothing (so no
second opponent-left notification); and on a participant with no match
entry, no queue entry and no hosted lobby the teardown is a complete
no-op with no notification.  The queue hypothesis reflects the source
invariant that a name is enqueued at most once. -/
theorem c9_teardown (s : ServerState) (p : String)
    (hq : s.quickMatchQueue.Nodup) :
    leaveGame (leaveGame s p).1 p = ((leaveGame s p).1, []) ∧
    (aget s.matchTable p = none → p ∉ s.quickMatchQueue →
       (∀ e ∈ s.privateGames, e.2.host ≠ p) →
       leaveGame s p = (s, [])) := by
  obtain ⟨pl, q, g, m, r⟩ := s
  constructor
  · have hS1 : (leaveGame ⟨pl, q, g, m, r⟩ p).1 =
        ⟨pl, removeFromQueue q p, removeHostedLobbies g p,
         removePlayerFromMatch m p, r⟩ := rfl
    rw [hS1]
    have h1 : (leaveGame ⟨pl, removeFromQueue q p, removeHostedLobbies g p,
        removePlayerFromMatch m p, r⟩ p).1 =
        ⟨pl, removeFromQueue (removeFromQueue q p) p,
         removeHostedLobbies (removeHostedLobbies g p) p,
         removePlayerFromMatch (removePlayerFromMatch m p) p, r⟩ := rfl
    rw [removeFromQueue_of_not_mem _ _ (not_mem_removeFromQueue q p hq),
        removeHostedLobbies_idem, removePlayerFromMatch_idem] at h1
    have h2 : (leaveGame ⟨pl, removeFromQueue q p, removeHostedLobbies g p,
        removePlayerFromMatch m p, r⟩ p).2 = [] := by
      rcases aget_removePlayerFromMatch_self m p with h | h
      · exact leaveGame_snd_of_none _ _ h
      · exact leaveGame_snd_of_empty _ _ h
    calc leaveGame ⟨pl, removeFromQueue q p, removeHostedLobbies g p,
           removePlayerFromMatch m p, r⟩ p
        = ((leaveGame ⟨pl, removeFromQueue q p, removeHostedLobbies g p,
             removePlayerFromMatch m p, r⟩ p).1,
           (leaveGame ⟨pl, removeFromQueue q p, removeHostedLobbies g p,
             removePlayerFromMatch m p, r⟩ p).2) := rfl
      _ = _ := by rw [h1, h2]
  · intro hm hqmem hg
    have h1 : (leaveGame ⟨pl, q, g, m, r⟩ p).1 =
        ⟨pl, removeFromQueue q p, removeHostedLobbies g p,
         removePlayerFromMatch m p, r⟩ := rfl
    rw [removePlayerFromMatch_of_none _ _ hm,
        removeFromQueue_of_not_mem _ _ hqmem,
        removeHostedLobbies_of_none _ _ hg] at h1
    have h2 : (leaveGame ⟨pl, q, g, m, r⟩ p).2 = [] :=
      leaveGame_snd_of_none _ _ hm
    calc leaveGame ⟨pl, q, g, m, r⟩ p
        = ((leaveGame ⟨pl, q, g, m, r⟩ p).1,
           (leaveGame ⟨pl, q, g, m, r⟩ p).2) := rfl
      _ = _ := by rw [h1, h2]

/-- Witness for C9 at the concrete scenario state. -/
theorem c9_teardown_witness :
    leaveGame (leaveGame c9State "alice").1 "alice" =
      ((leaveGame c9State "alice").1, []) :=
  (c9_teardown c9State "alice" (by decide)).1

/-- Claim C10: when a stored ready vote disagrees with the opponent vote
(match present, opponent a registered non-IA player), the handler tears
nothing down: the whole state except the just-stored vote is unchanged
(match table, pending choices, queue, lobbies), and the only send is a
single opponent_left to the sender, emitted exactly when the sender voted
true; a false vote sends nothing to either side. -/
theorem c10_ready_mismatch (s : ServerState) (p opp : String) (v : Bool)
    (hm : aget s.matchTable p = some opp)
    (hne : opp ≠ "") (hia : opp ≠ "IA")
    (hreg : (aget s.players opp).isSome = true)
    (hpo : p ≠ opp)
    (hdis : some v ≠ aget s.playerReadyState opp) :
    readyForNextRound s p v =
      ({ s with playerReadyState := aset s.playerReadyState p v },
       if v then [(p, Msg.opponentLeft)] else []) := by
  have hgp : aget (aset s.playerReadyState p v) p = some v := aget_aset_self _ _ _
  have hgo : aget (aset s.playerReadyState p v) opp = aget s.playerReadyState opp :=
    aget_aset_ne _ p opp _ (Ne.symm hpo)
  simp only [readyForNextRound, hm]
  rw [if_pos ⟨hne, hia, hreg⟩, hgp, hgo]
  cases v with
  | true =>
      cases h2 : aget s.playerReadyState opp with
      | none => simp [optTruthy]
      | some b =>
          cases b with
          | false => simp [optTruthy]
          | true =>
              rw [h2] at hdis
              exact absurd rfl hdis
  | false =>
      cases h2 : aget s.playerReadyState opp with
      | none => simp [optTruthy]
      | some b =>
          cases b with
          | true => simp [optTruthy]
          | false =>
              rw [h2] at hdis
              exact absurd rfl hdis

/-- Witness for C10 at the concrete scenario: alice votes true while the
stored vote of bob is false; only alice gets opponent_left and only the
vote of alice changes. -/
theorem c10_ready_mismatch_witness :
    readyForNextRound c10State "alice" true =
      ({ c10State with
          playerReadyState := aset c10State.playerReadyState "alice" true },
       [("alice", Msg.opponentLeft)]) :=
  c10_ready_mismatch c10State "alice" "bob" true (by decide) (by decide)
    (by decide) (by decide) (by decide) (by decide)

/-- Claim C4: the pure winner determination satisfies the claimed table
(identical symbols draw; pierre beats ciseaux, ciseaux beats feuille,
feuille beats pierre) and is antisymmetric on distinct symbols: the first
argument wins the ordered pair exactly when the second argument of the
mirrored pair wins. -/
theorem c4_getResult (x y : Choice) :
    getResult x x = RoundResult.draw ∧
    getResult Choice.pierre Choice.ciseaux = RoundResult.player1 ∧
    getResult Choice.ciseaux Choice.feuille = RoundResult.player1 ∧
    getResult Choice.feuille Choice.pierre = RoundResult.player1 ∧
    (x ≠ y → (getResult x y = RoundResult.player1 ↔
              getResult y x = RoundResult.player2)) := by
  cases x <;> cases y <;> decide

/-- Witness for C4 at the concrete pair (pierre, ciseaux). -/
theorem c4_getResult_witness :
    getResult Choice.pierre Choice.ciseaux = RoundResult.player1 ↔
    getResult Choice.ciseaux Choice.pierre = RoundResult.player2 :=
  (c4_getResult Choice.pierre Choice.ciseaux).2.2.2.2 (by decide)

/-- Closed-form characterization of the drain loop: it consumes the queue
in consecutive two-chunks, keeps exactly the chunks whose two names are
both registered, folds the symmetric match installation and ready reset
over those chunks in formation order, emits the two game_joined messages
per kept chunk, and leaves only a dangling odd entry in the queue. -/
theorem drainQueue_eq :
    ∀ (q : List String) (pl : List (String × Option Choice))
      (m : List (String × String)) (r : List (String × Bool)),
      drainQueue q pl m r =
        (chunkRest q,
         ((chunkPairs q).filter (bothRegistered pl)).foldl pairFold m,
         ((chunkPairs q).filter (bothRegistered pl)).foldl readyFold r,
         pairSendsAll ((chunkPairs q).filter (bothRegistered pl)))
  | [], _, _, _ => rfl
  | [_], _, _, _ => rfl
  | x :: y :: rest, pl, m, r => by
      have ih := drainQueue_eq rest pl
      cases hb : bothRegistered pl (x, y) with
      | true =>
          have hx : ((aget pl x).isSome && (aget pl y).isSome) = true := hb
          simp only [drainQueue, if_pos hx, chunkPairs, chunkRest,
            List.filter_cons, hb, if_true, List.foldl_cons]
          rw [ih]
          simp [pairFold, readyFold, pairSendsAll]
      | false =>
          have hx : ¬(((aget pl x).isSome && (aget pl y).isSome) = true) := by
            intro hcon
            have hcon2 : bothRegistered pl (x, y) = true := hcon
            rw [hb] at hcon2
            exact Bool.noConfusion hcon2
          simp only [drainQueue, if_neg hx, chunkPairs, chunkRest,
            List.filter_cons, hb]
          rw [ih]
          simp

/-- Claim C5 counterexample: with A, C, D registered and B gone, draining
the queue A, B, C, D empties the queue and pairs only C with D: the
still-registered entry A, whose drawn partner B has disconnected, is
itself silently discarded (not paired, not left in or returned to the
queue), contradicting the claim that only unregistered entries are
dropped. -/
theorem c5_counterexample :
    (aget c5State.players "A").isSome = true ∧
    (matchQuickPlayers c5State).1.quickMatchQueue = [] ∧
    aget (matchQuickPlayers c5State).1.matchTable "A" = none ∧
    (matchQuickPlayers c5State).2 =
      [("C", Msg.gameJoined "D"), ("D", Msg.gameJoined "C")] := by
  decide

/-- Claim C5 amended: draining is strict FIFO over consecutive two-chunks
of the queue: a chunk is paired (symmetric match entries, ready reset,
two game_joined sends) exactly when both of its names are registered, so
an unregistered name is never paired; but when either drawn entry of a
chunk is unregistered the whole chunk is dropped, so a still-registered
entry whose drawn partner has disconnected is itself discarded. -/
theorem c5_amended (s : ServerState) :
    matchQuickPlayers s =
      ({ s with
          quickMatchQueue := chunkRest s.quickMatchQueue,
          matchTable := ((chunkPairs s.quickMatchQueue).filter
            (bothRegistered s.players)).foldl pairFold s.matchTable,
          playerReadyState := ((chunkPairs s.quickMatchQueue).filter
            (bothRegistered s.players)).foldl readyFold s.playerReadyState },
       pairSendsAll
         ((chunkPairs s.quickMatchQueue).filter (bothRegistered s.players))) ∧
    ∀ pr ∈ (chunkPairs s.quickMatchQueue).filter (bothRegistered s.players),
      (aget s.players pr.1).isSome = true ∧ (aget s.players pr.2).isSome = true := by
  constructor
  · simp [matchQuickPlayers, drainQueue_eq]
  · intro pr hpr
    have hb := List.of_mem_filter hpr
    simpa [bothRegistered, Bool.and_eq_true] using hb

/-- Witness for the amended C5 at the concrete scenario state. -/
theorem c5_amended_witness :
    (matchQuickPlayers c5State).2 =
      [("C", Msg.gameJoined "D"), ("D", Msg.gameJoined "C")] ∧
    ((aget c5State.players "C").isSome = true ∧
     (aget c5State.players "D").isSome = true) :=
  have hc5 := c5_amended c5State
  ⟨by rw [hc5.1]; decide, hc5.2 ("C", "D") (by decide)⟩

/-- Claim C6 counterexample: the match table of the scenario state is
symmetric, but after the quick-match drain pairs dora (already matched to
emil) with fred, the table contains the orphaned non-IA entry emil to
dora without a reciprocal, so the pairing operation does not keep the
table symmetric. -/
theorem c6_counterexample :
    SymmMatches c6State.matchTable ∧
    ¬ SymmMatches (matchQuickPlayers c6State).1.matchTable := by
  constructor
  · intro x y hx hxy hy
    by_cases h1 : x = "dora"
    · subst h1
      have h2 : (some "emil" : Option String) = some y :=
        (by decide : aget c6State.matchTable "dora" = some "emil").symm.trans hxy
      injection h2 with h3
      subst h3
      decide
    · by_cases h2 : x = "emil"
      · subst h2
        have h3 : (some "dora" : Option String) = some y :=
          (by decide : aget c6State.matchTable "emil" = some "dora").symm.trans hxy
        injection h3 with h4
        subst h4
        decide
      · exfalso
        have e1 : "dora" ≠ x := fun hd => h1 hd.symm
        have e2 : "emil" ≠ x := fun hd => h2 hd.symm
        rw [show aget c6State.matchTable x = none by simp [c6State, aget, e1, e2]]
          at hxy
        exact Option.noConfusion hxy
  · intro hS
    have h1 := hS "emil" "dora" (by decide) (by decide) (by decide)
    exact absurd h1 (by decide)

/-- Claim C6 amended: the double Map.set of a pairing installs both
directions (opponentOf both ways); it preserves the symmetry invariant
when neither side already has an entry; removePlayerFromMatch always
preserves the symmetry invariant and removes both directed entries of an
existing non-IA pairing; but pairing a participant who already has an
opponent breaks symmetry, leaving an orphaned non-IA entry (the
counterexample). -/
theorem c6_amended (m : List (String × String)) (a b p q : String) :
    (a ≠ b → aget (aset (aset m a b) b a) a = some b ∧
       aget (aset (aset m a b) b a) b = some a) ∧
    (SymmMatches m → aget m a = none → aget m b = none → a ≠ b →
       a ≠ "IA" → b ≠ "IA" → SymmMatches (aset (aset m a b) b a)) ∧
    (SymmMatches m → p ≠ "IA" → SymmMatches (removePlayerFromMatch m p)) ∧
    (aget m p = some q → q ≠ "" → q ≠ "IA" →
       aget (removePlayerFromMatch m p) p = none ∧
       aget (removePlayerFromMatch m p) q = none) := by
  refine ⟨?_, ?_, ?_, ?_⟩
  · intro hab
    exact ⟨by rw [aget_aset_ne _ b a _ hab, aget_aset_self],
           aget_aset_self _ _ _⟩
  · intro hS ha hb hab hia hib x y hx hxy hy
    by_cases hxb : x = b
    · rw [hxb] at hxy
      rw [aget_aset_self] at hxy
      injection hxy with hya
      rw [hxb, ← hya]
      rw [aget_aset_ne _ b a _ hab, aget_aset_self]
    · rw [aget_aset_ne _ b x _ hxb] at hxy
      by_cases hxa : x = a
      · rw [hxa] at hxy
        rw [aget_aset_self] at hxy
        injection hxy with hyb
        rw [hxa, ← hyb]
        rw [aget_aset_self]
      · rw [aget_aset_ne _ a x _ hxa] at hxy
        have hrec := hS x y hx hxy hy
        have hya : y ≠ a := by
          intro hcon
          subst hcon
          rw [hrec] at ha
          exact Option.noConfusion ha
        have hyb : y ≠ b := by
          intro hcon
          subst hcon
          rw [hrec] at hb
          exact Option.noConfusion hb
        rw [aget_aset_ne _ b y _ hyb, aget_aset_ne _ a y _ hya]
        exact hrec
  · intro hS hpia
    rcases hcase : aget m p with _ | opp
    · rw [removePlayerFromMatch_of_none _ _ hcase]
      exact hS
    · by_cases he : opp = ""
      · subst he
        rw [removePlayerFromMatch_of_empty _ _ hcase]
        exact hS
      · have hbody : removePlayerFromMatch m p =
            (if opp = "IA" then adel m p else adel (adel m p) opp) := by
          unfold removePlayerFromMatch
          rw [hcase]
          show (if opp = "" then m
            else if opp = "IA" then adel m p else adel (adel m p) opp) = _
          rw [if_neg he]
        rw [hbody]
        by_cases hia : opp = "IA"
        · rw [if_pos hia]
          intro x y hx hxy hy
          have hxp : x ≠ p := by
            intro hcon
            subst hcon
            rw [aget_adel_self] at hxy
            exact Option.noConfusion hxy
          rw [aget_adel_ne _ p x hxp] at hxy
          have hrec := hS x y hx hxy hy
          have hyp : y ≠ p := by
            intro hcon
            rw [hcon] at hrec
            rw [hcase] at hrec
            injection hrec with h3
            exact hx (h3.symm.trans hia)
          rw [aget_adel_ne _ p y hyp]
          exact hrec
        · rw [if_neg hia]
          intro x y hx hxy hy
          have hxo : x ≠ opp := by
            intro hcon
            subst hcon
            rw [aget_adel_self] at hxy
            exact Option.noConfusion hxy
          rw [aget_adel_ne _ opp x hxo] at hxy
          have hxp : x ≠ p := by
            intro hcon
            subst hcon
            rw [aget_adel_self] at hxy
            exact Option.noConfusion hxy
          rw [aget_adel_ne _ p x hxp] at hxy
          have hrec := hS x y hx hxy hy
          have hyp : y ≠ p := by
            intro hcon
            rw [hcon] at hrec
            rw [hcase] at hrec
            injection hrec with h3
            exact hxo h3.symm
          have hyo : y ≠ opp := by
            intro hcon
            have hback := hS p opp hpia hcase hia
            rw [← hcon] at hback
            rw [hrec] at hback
            injection hback with h3
            exact hxp h3
          rw [aget_adel_ne _ opp y hyo, aget_adel_ne _ p y hyp]
          exact hrec
  · intro hpq he hia
    have hbody : removePlayerFromMatch m p = adel (adel m p) q := by
      unfold removePlayerFromMatch
      rw [hpq]
      show (if q = "" then m
        else if q = "IA" then adel m p else adel (adel m p) q) = _
      rw [if_neg he, if_neg hia]
    rw [hbody]
    constructor
    · by_cases hqp : p = q
      · subst hqp
        exact aget_adel_self _ _
      · rw [aget_adel_ne _ q p hqp]
        exact aget_adel_self _ _
    · exact aget_adel_self _ _

/-- Witness for the amended C6: the double Map.set on the empty table. -/
theorem c6_amended_witness :
    aget (aset (aset ([] : List (String × String)) "x" "y") "y" "x") "x"
      = some "y" ∧
    aget (aset (aset ([] : List (String × String)) "x" "y") "y" "x") "y"
      = some "x" :=
  (c6_amended [] "x" "y" "p" "q").1 (by decide)

/-- Claim C7 counterexample: pia joins lobby t7 successfully; a later join
attempt on the same token by the host omar fails with the SelfJoin error,
which is neither NotFound nor Full, contradicting the claim that every
later join attempt fails with NotFound or Full. -/
theorem c7_counterexample :
    (joinPrivateGame c7State "pia" "t7").sends =
      [("omar", Msg.gameJoined "pia"), ("pia", Msg.gameJoined "omar")] ∧
    joinPrivateGame (joinPrivateGame c7State "pia" "t7").state "omar" "t7" =
      ⟨(joinPrivateGame c7State "pia" "t7").state,
       [("omar", Msg.errorMsg JoinErr.selfJoin)], []⟩ ∧
    Msg.errorMsg JoinErr.selfJoin ≠ Msg.errorMsg JoinErr.notFound ∧
    Msg.errorMsg JoinErr.selfJoin ≠ Msg.errorMsg JoinErr.full := by
  decide

/-- Claim C7 amended: the join checks run in the claimed order (NotFound,
then SelfJoin, then Full) and return the first failure with no state
change; after one successful join the guest slot holds the joiner, and
every later join attempt on the same token fails with SelfJoin for the
host and Full for everyone else, leaves the state unchanged, and never
assigns a second guest. -/
theorem c7_amended (s : ServerState) (t p h : String) :
    (aget s.privateGames t = none →
       joinPrivateGame s p t = ⟨s, [(p, Msg.errorMsg JoinErr.notFound)], []⟩) ∧
    (∀ g, aget s.privateGames t = some g → g.host = p →
       joinPrivateGame s p t = ⟨s, [(p, Msg.errorMsg JoinErr.selfJoin)], []⟩) ∧
    (∀ g, aget s.privateGames t = some g → g.host ≠ p →
       optStrTruthy g.guest = true →
       joinPrivateGame s p t = ⟨s, [(p, Msg.errorMsg JoinErr.full)], []⟩) ∧
    (aget s.privateGames t = some ⟨h, none⟩ → h ≠ p → p ≠ "" →
       aget (joinPrivateGame s p t).state.privateGames t = some ⟨h, some p⟩ ∧
       ∀ p2, joinPrivateGame (joinPrivateGame s p t).state p2 t =
         ⟨(joinPrivateGame s p t).state,
          [(p2, Msg.errorMsg (if h = p2 then JoinErr.selfJoin else JoinErr.full))],
          []⟩) := by
  refine ⟨?_, ?_, ?_, ?_⟩
  · intro hg
    simp [joinPrivateGame, hg]
  · intro g hg hh
    simp [joinPrivateGame, hg, hh]
  · intro g hg hh hfull
    simp [joinPrivateGame, hg, hh, hfull]
  · intro hg hh hp
    have hsucc : joinPrivateGame s p t =
        ⟨{ s with
            privateGames := aset s.privateGames t ⟨h, some p⟩,
            matchTable := aset (aset s.matchTable h p) p h,
            playerReadyState := aset (aset s.playerReadyState h false) p false },
         [(h, Msg.gameJoined p), (p, Msg.gameJoined h)], []⟩ := by
      simp [joinPrivateGame, hg, hh, optStrTruthy]
    rw [hsucc]
    constructor
    · exact aget_aset_self _ _ _
    · intro p2
      by_cases hh2 : h = p2
      · simp [joinPrivateGame, aget_aset_self, hh2]
      · simp [joinPrivateGame, aget_aset_self, hh2, optStrTruthy, hp]

/-- Witness for the amended C7: a join on a token that does not exist in
the scenario state fails with NotFound. -/
theorem c7_amended_witness :
    joinPrivateGame c7State "pia" "nosuch" =
      ⟨c7State, [("pia", Msg.errorMsg JoinErr.notFound)], []⟩ :=
  (c7_amended c7State "nosuch" "pia" "omar").1 (by decide)

end RPS
